import Mathlib

/-!
Verification of the tomd-convert document-to-Markdown converters.

The development shallowly embeds the three Python source files
(`doc_to_markdown.py`, `excel_to_markdown.py`, `pdf_to_markdown.py`).
Text is modelled as `List Char`; the document object models exposed by the
parsing libraries (python-docx, odfpy, pandas, pdfplumber) are modelled as
explicit inductive data that the conversion functions consume.  All
definitions are executable and structural, so concrete runs evaluate by
`decide` / `rfl`.
-/

set_option autoImplicit false

namespace Tomd

/-- Text is a list of characters (Python `str`). -/
abbrev Str := List Char

/-- Coerce a Lean string literal to the character-list model. -/
def str (s : String) : Str := s.data

/-- The whitespace class of Python's regex `\s` and of `str.strip`
(ASCII part: space, tab, newline, carriage return, vertical tab, form feed;
the rarely-relevant further Unicode whitespace is not modelled). -/
def isPySpace (c : Char) : Bool :=
  c = ' ' || c = '\t' || c = '\n' || c = '\r' || c = '\x0b' || c = '\x0c'

/-- Core of `re.sub(r'\s+', ' ', text)`: each maximal run of whitespace
characters is replaced by a single space.  The flag records whether we are
currently inside a whitespace run that has already produced its space. -/
def collapseGo : Bool → Str → Str
  | _, [] => []
  | inRun, c :: cs =>
    if isPySpace c then
      if inRun then collapseGo true cs else ' ' :: collapseGo true cs
    else c :: collapseGo false cs

/-- `re.sub(r'\s+', ' ', text)`. -/
def collapseWs (s : Str) : Str := collapseGo false s

/-- Remove trailing whitespace (the right half of Python `str.strip`). -/
def stripRight (s : Str) : Str := ((s.reverse.dropWhile isPySpace)).reverse

/-- Python `str.strip()`: drop leading and trailing whitespace. -/
def stripWs (s : Str) : Str := stripRight (s.dropWhile isPySpace)

/-- `clean_text` from `doc_to_markdown.py` lines 27-33 and
`pdf_to_markdown.py` lines 8-14: `None` becomes the empty string, otherwise
whitespace runs collapse to single spaces and the ends are stripped. -/
def clean_text : Option Str → Str
  | none => []
  | some s => stripWs (collapseWs s)

/-- Python's substring containment test `needle in hay`. -/
def containsSub (needle : Str) : Str → Bool
  | [] => needle.isPrefixOf []
  | c :: cs => needle.isPrefixOf (c :: cs) || containsSub needle cs

/-- Fuelled scanner implementing Python `str.replace` for a non-empty
pattern: scan left to right, replacing each non-overlapping occurrence of
`p` by `r`.  The fuel bounds the recursion; callers pass `s.length`. -/
def replaceGoF (p r : Str) : Nat → Str → Str
  | 0, _ => []
  | _ + 1, [] => []
  | fuel + 1, c :: cs =>
    if p.isPrefixOf (c :: cs) && !p.isEmpty then
      r ++ replaceGoF p r fuel ((c :: cs).drop p.length)
    else
      c :: replaceGoF p r fuel cs

/-- Python `s.replace(p, r)` (all occurrences).  For the empty pattern,
Python inserts `r` before every character and at the end. -/
def pyReplace (p r s : Str) : Str :=
  if p.isEmpty then r ++ s.flatMap (fun c => c :: r) else replaceGoF p r s.length s

/-- Python `"|".join(cells)`. -/
def joinPipe : List Str → Str
  | [] => []
  | [c] => c
  | c :: c' :: cs => c ++ '|' :: joinPipe (c' :: cs)

/-- The table-row shape `"|" + "|".join(cells) + "|"` used by every
converter. -/
def pipeLine (cells : List Str) : Str := '|' :: joinPipe cells ++ ['|']

/-- Python `enumerate(xs, i)`. -/
def enumFrom {α : Type} (i : Nat) : List α → List (Nat × α)
  | [] => []
  | x :: xs => (i, x) :: enumFrom (i + 1) xs

/-- Concatenation of the images of `f`, in order (the effect of a Python
loop appending `f x` for each element). -/
def concatMap {α β : Type} (f : α → List β) : List α → List β
  | [] => []
  | x :: xs => f x ++ concatMap f xs

/-- Python `'\n'.join(lines)`, the final file content. -/
def joinNl : List Str → Str
  | [] => []
  | [l] => l
  | l :: l' :: ls => l ++ '\n' :: joinNl (l' :: ls)

/-- Decimal rendering of a page or table number (Python string
interpolation of an `int`). -/
def natToStr (n : Nat) : Str := (Nat.repr n).data

/-- Boolean check that a string has no two consecutive whitespace
characters. -/
def noConsecWsB : Str → Bool
  | c1 :: c2 :: rest => (!(isPySpace c1 && isPySpace c2)) && noConsecWsB (c2 :: rest)
  | _ => true

/-! ### Word (`.docx`) conversion, `doc_to_markdown.py` lines 35-105 -/

/-- A python-docx run: a contiguous text span with emphasis flags. -/
structure Run where
  text : Str
  bold : Bool
  italic : Bool
deriving DecidableEq

/-- A python-docx paragraph: its style name (empty when the paragraph has
no style) and its runs; `para.text` is the concatenation of the run
texts. -/
structure DocxParagraph where
  styleName : Str
  runs : List Run
deriving DecidableEq

/-- A body element of a Word document: a paragraph (`w:p`) or a table
(`w:tbl`, given as rows of raw cell texts `cell.text`). -/
inductive DocxBlock where
  | para (p : DocxParagraph)
  | table (rows : List (List Str))
deriving DecidableEq

/-- Concatenation of the run texts of a run list (`para.text`). -/
def concatTexts : List Run → Str
  | [] => []
  | r :: rs => r.text ++ concatTexts rs

/-- One step of the emphasis loop of lines 67-73: replace the run's text by
its wrapped form inside the accumulated paragraph text. -/
def fmtStep (acc : Str) (run : Run) : Str :=
  if run.bold && run.italic then
    pyReplace run.text (str "***" ++ run.text ++ str "***") acc
  else if run.bold then
    pyReplace run.text (str "**" ++ run.text ++ str "**") acc
  else if run.italic then
    pyReplace run.text (str "*" ++ run.text ++ str "*") acc
  else acc

/-- The emphasis loop of lines 66-73 (`formatted_text` folding over
`para.runs`). -/
def docxFormatRuns (t : Str) (runs : List Run) : Str := List.foldl fmtStep t runs

/-- The Markdown emphasis wrapping the spec assigns to a single run. -/
def runWrap (r : Run) : Str :=
  if r.bold && r.italic then str "***" ++ r.text ++ str "***"
  else if r.bold then str "**" ++ r.text ++ str "**"
  else if r.italic then str "*" ++ r.text ++ str "*"
  else r.text

/-- Whether the emphasis loop rewrites this run at all. -/
def runFormatted (r : Run) : Bool := r.bold || r.italic

/-- The intended per-run rendering: the concatenation of the wrapped
runs. -/
def renderRuns : List Run → Str
  | [] => []
  | r :: rs => runWrap r ++ renderRuns rs

/-- Paragraph handling of lines 45-76: strip the paragraph text, skip it if
empty, otherwise classify by style name (heading 1-3 English/Japanese, list,
plain with emphasis) and append the trailing blank line. -/
def docxRenderPara (p : DocxParagraph) : List Str :=
  let text := stripWs (concatTexts p.runs)
  if text.isEmpty then []
  else
    let sty := p.styleName
    (if containsSub (str "Heading 1") sty || containsSub (str "見出し 1") sty then
      [str "# " ++ text ++ str "\n"]
    else if containsSub (str "Heading 2") sty || containsSub (str "見出し 2") sty then
      [str "## " ++ text ++ str "\n"]
    else if containsSub (str "Heading 3") sty || containsSub (str "見出し 3") sty then
      [str "### " ++ text ++ str "\n"]
    else if containsSub (str "List") sty || containsSub (str "箇条書き") sty then
      [str "- " ++ text]
    else
      [docxFormatRuns text p.runs]) ++ [[]]

/-- Table handling of lines 79-103: header row from the cleaned cells of
row 0, a `---` separator per header cell, then the remaining rows with
cleaned cells and `\n` replaced by `<br>`, surrounded by blank lines. -/
def docxRenderTable : List (List Str) → List Str
  | [] => []
  | r0 :: rest =>
    let headerCells := r0.map (fun c => clean_text (some c))
    [[], pipeLine headerCells, pipeLine (headerCells.map (fun _ => str "---"))] ++
      rest.map (fun row =>
        pipeLine (row.map (fun c => pyReplace (str "\n") (str "<br>") (clean_text (some c))))) ++
      [[]]

/-- `docx_to_markdown` lines 35-105: walk the body elements in document
order, rendering paragraphs and tables. -/
def docx_to_markdown (blocks : List DocxBlock) : List Str :=
  concatMap
    (fun b =>
      match b with
      | DocxBlock.para p => docxRenderPara p
      | DocxBlock.table rows => docxRenderTable rows)
    blocks

/-! ### OpenDocument (`.odt`) conversion, `doc_to_markdown.py` lines 107-182 -/

/-- An odfpy node: either a text leaf carrying `data` or an element with
child nodes. -/
inductive OdtNode where
  | textLeaf (data : Str)
  | node (children : List OdtNode)

mutual

/-- `extract_text_from_odt_element` lines 107-118: depth-first
concatenation of every text leaf. -/
def extract_text_from_odt_element : OdtNode → Str
  | OdtNode.textLeaf d => d
  | OdtNode.node cs => extractTextList cs

/-- Concatenated extraction over a child list, in order. -/
def extractTextList : List OdtNode → Str
  | [] => []
  | n :: ns => extract_text_from_odt_element n ++ extractTextList ns

end

/-- A top-level OpenDocument element: a paragraph (style name plus content
tree) or a table (rows of cell content trees). -/
inductive OdtElem where
  | para (styleName : Str) (body : OdtNode)
  | table (rows : List (List OdtNode))

/-- First maximal decimal digit run in a string, as a number
(`re.search(r'\d+', style_name)` followed by `int`). -/
def firstNumber : Str → Option Nat
  | [] => none
  | c :: cs =>
    if c.isDigit then
      some (((c :: cs).takeWhile Char.isDigit).foldl (fun a d => a * 10 + (d.toNat - 48)) 0)
    else firstNumber cs

/-- Heading level of lines 139-143: first number in the style name capped
at 6 (`min(int(match.group()), 6)`), defaulting to 1 when no number
occurs.  There is no lower cap. -/
def odtHeadingLevel (sty : Str) : Nat :=
  match firstNumber sty with
  | none => 1
  | some n => min n 6

/-- Paragraph handling of lines 129-149: clean the recursively extracted
text, skip if empty, render headings via the style name, otherwise plain
text with a trailing blank line. -/
def odtRenderPara (sty : Str) (body : OdtNode) : List Str :=
  let t := clean_text (some (extract_text_from_odt_element body))
  if t.isEmpty then []
  else if containsSub (str "Heading") sty || containsSub (str "heading") sty then
    [List.replicate (odtHeadingLevel sty) '#' ++ str " " ++ t ++ str "\n"]
  else [t, []]

/-- Table handling of lines 152-180: a blank line, then (for non-empty
tables) header from the cleaned row 0, a `---` separator per header cell,
the remaining rows with `\n` replaced by `<br>`, and a trailing blank. -/
def odtRenderTable (rows : List (List OdtNode)) : List Str :=
  match rows.map (fun row => row.map (fun cell => clean_text (some (extract_text_from_odt_element cell)))) with
  | [] => [[]]
  | r0 :: rest =>
    [[], pipeLine r0, pipeLine (r0.map (fun _ => str "---"))] ++
      rest.map (fun row => pipeLine (row.map (fun c => pyReplace (str "\n") (str "<br>") c))) ++
      [[]]

/-- The paragraph elements of the document in document order
(`doc.getElementsByType(text.P)`). -/
def odtParas : List OdtElem → List (Str × OdtNode)
  | [] => []
  | OdtElem.para s b :: es => (s, b) :: odtParas es
  | OdtElem.table _ :: es => odtParas es

/-- The table elements of the document in document order
(`doc.getElementsByType(table.Table)`). -/
def odtTables : List OdtElem → List (List (List OdtNode))
  | [] => []
  | OdtElem.para _ _ :: es => odtTables es
  | OdtElem.table rows :: es => rows :: odtTables es

/-- `odt_to_markdown` lines 120-182: one pass appending all paragraph
renderings, then a second pass appending all table renderings. -/
def odt_to_markdown (doc : List OdtElem) : List Str :=
  let buf1 := List.foldl (fun buf pb => buf ++ odtRenderPara pb.1 pb.2) [] (odtParas doc)
  List.foldl (fun buf t => buf ++ odtRenderTable t) buf1 (odtTables doc)

/-! ### Spreadsheet conversion, `excel_to_markdown.py` -/

/-- A sheet as pandas presents it: its name, the column labels
(`str(col)`), and the data rows, each cell either a value rendered by
`str(val)` or missing (`NaN`). -/
structure Sheet where
  name : Str
  cols : List Str
  rows : List (List (Option Str))

/-- One data row, line 62: each present cell with `\n` replaced by `<br>`
and each missing cell as the empty string. -/
def excelRowLine (r : List (Option Str)) : Str :=
  pipeLine
    (r.map (fun v =>
      match v with
      | some t => pyReplace (str "\n") (str "<br>") t
      | none => []))

/-- Per-sheet rendering of lines 40-65: a level-2 heading with the sheet
name, then either the no-data placeholder (pandas `df.empty`: zero rows or
zero columns) or header, separator, data rows and a trailing blank line. -/
def excelRenderSheet (s : Sheet) : List Str :=
  let heading := str "\n## " ++ s.name ++ str "\n"
  if s.rows.isEmpty || s.cols.isEmpty then
    [heading, str "*（データなし）*\n"]
  else
    [heading, pipeLine s.cols, pipeLine (s.cols.map (fun _ => str "---"))] ++
      s.rows.map excelRowLine ++ [[]]

/-- The spreadsheet line buffer, lines 33-65: the file-name title then each
sheet in the file's internal order. -/
def excelBuildContent (fileName : Str) (sheets : List Sheet) : List Str :=
  (str "# " ++ fileName ++ str "\n") :: concatMap excelRenderSheet sheets

/-! ### PDF conversion, `pdf_to_markdown.py` -/

/-- A pdfplumber page: the result of `extract_text()` (`None` or the page
text) and of `extract_tables()` (tables as rows of optional cells). -/
structure PdfPage where
  text : Option Str
  tables : List (List (List (Option Str)))

/-- Cell cleaning of line 39: `clean_text(str(cell))` for a present cell,
the empty string for an absent one. -/
def pdfCleanCell : Option Str → Str
  | some v => clean_text (some v)
  | none => []

/-- Cleaning of lines 37-42: clean every cell, then keep only the rows with
at least one non-empty cell. -/
def pdfCleanTable (tbl : List (List (Option Str))) : List (List Str) :=
  (tbl.map (fun row => row.map pdfCleanCell)).filter (fun r => r.any (fun c => !c.isEmpty))

/-- Subheading of lines 31-34: indexed with the table number exactly when
the page's detected-table list has more than one element. -/
def pdfSubheading (pageNum numTables tableNum : Nat) : Str :=
  if numTables > 1 then
    str "\n### ページ" ++ natToStr pageNum ++ str " - テーブル" ++ natToStr tableNum ++ str "\n"
  else
    str "\n### ページ" ++ natToStr pageNum ++ str " - テーブル\n"

/-- Per-table rendering of lines 26-60: skip empty raw tables, emit the
subheading, clean, and if rows survive emit header, separator, data rows
with `\n` replaced by `<br>`, and a trailing blank.  The subheading is
emitted before the cleaning, so a table whose rows are all dropped still
contributes its subheading. -/
def pdfRenderTable (pageNum numTables tableNum : Nat) (tbl : List (List (Option Str))) : List Str :=
  if tbl.isEmpty then []
  else
    match pdfCleanTable tbl with
    | [] => [pdfSubheading pageNum numTables tableNum]
    | r0 :: rest =>
      [pdfSubheading pageNum numTables tableNum, pipeLine r0,
        pipeLine (r0.map (fun _ => str "---"))] ++
        rest.map (fun row => pipeLine (row.map (fun c => pyReplace (str "\n") (str "<br>") c))) ++
        [[]]

/-- All tables of one page, lines 25-60 (`enumerate(tables, 1)` with
`len(tables)` deciding the subheading form). -/
def pdfRenderPageTables (pageNum : Nat) (tables : List (List (List (Option Str)))) : List Str :=
  concatMap (fun it => pdfRenderTable pageNum tables.length it.1 it.2) (enumFrom 1 tables)

/-- `extract_tables_from_pdf` lines 16-62. -/
def extract_tables_from_pdf (pages : List PdfPage) : List Str :=
  concatMap (fun ip => pdfRenderPageTables ip.1 ip.2.tables) (enumFrom 1 pages)

/-- Fuelled scanner implementing Python `str.split` for a non-empty
separator. -/
def pySplitF (sep : Str) : Nat → Str → List Str
  | 0, _ => [[]]
  | _ + 1, [] => [[]]
  | fuel + 1, c :: cs =>
    if sep.isPrefixOf (c :: cs) && !sep.isEmpty then
      [] :: pySplitF sep fuel ((c :: cs).drop sep.length)
    else
      match pySplitF sep fuel cs with
      | [] => [[c]]
      | piece :: rest => (c :: piece) :: rest

/-- Python `s.split(sep)` for a non-empty separator. -/
def pySplit (sep s : Str) : List Str := pySplitF sep s.length s

/-- Per-page text extraction of lines 69-80: skip pages with falsy text,
otherwise a page heading followed by the cleaned non-empty paragraphs
obtained by splitting on blank lines. -/
def pdfRenderPageText (pageNum : Nat) (text : Option Str) : List Str :=
  match text with
  | none => []
  | some t =>
    if t.isEmpty then []
    else
      (str "\n## ページ" ++ natToStr pageNum ++ str "\n") ::
        (pySplit (str "\n\n") t).filterMap (fun para =>
          let c := clean_text (some para)
          if c.isEmpty then none else some (c ++ str "\n"))

/-- `extract_text_from_pdf` lines 64-82. -/
def extract_text_from_pdf (pages : List PdfPage) : List Str :=
  concatMap (fun ip => pdfRenderPageText ip.1 ip.2.text) (enumFrom 1 pages)

/-- The PDF conversion mode selector. -/
inductive PdfMode where
  | text
  | tables
  | both
deriving DecidableEq

/-- The line buffer built by `pdf_to_markdown` lines 104-124: the file-name
title; the extracted text is appended only when the mode is exactly
`"text"` (line 115 tests `text_content and mode == "text"`); the table
lines are appended in `tables` and `both` modes, preceded in `both` mode by
a rule and a table-data heading when the extracted text is non-empty. -/
def pdfBuildContent (fileName : Str) (pages : List PdfPage) (mode : PdfMode) : List Str :=
  let c0 := [str "# " ++ fileName ++ str "\n"]
  let textContent := extract_text_from_pdf pages
  let c1 := if mode = PdfMode.text ∧ ¬textContent.isEmpty then c0 ++ textContent else c0
  let tablesContent := extract_tables_from_pdf pages
  if (mode = PdfMode.tables ∨ mode = PdfMode.both) ∧ ¬tablesContent.isEmpty then
    (if mode = PdfMode.both ∧ ¬textContent.isEmpty then
      c1 ++ [str "\n---\n\n# テーブルデータ\n"]
    else c1) ++ tablesContent
  else c1

/-! ### Entry points and their error handling -/

/-- Input state seen by `doc_to_markdown` lines 184-243: whether the file
exists, its base name, resolved output path, lowercased extension, the two
availability flags, and the parse results of the two loaders (an `error`
models an exception raised by the parsing library). -/
structure DocInput where
  fileExists : Bool
  fileName : Str
  outPath : Str
  ext : Str
  docxAvailable : Bool
  odtAvailable : Bool
  docxDoc : Except Str (List DocxBlock)
  odtDoc : Except Str (List OdtElem)

/-- The `ImportError` message raised at line 38. -/
def docxImportErrMsg : Str :=
  str "python-docxがインストールされていません。pip install python-docx を実行してください。"

/-- The `ImportError` message raised at line 123. -/
def odtImportErrMsg : Str :=
  str "odfpyがインストールされていません。pip install odfpy を実行してください。"

/-- The generic hint block printed at lines 240-242. -/
def docGenericHints : List Str :=
  [str "\n必要なライブラリ:",
   str "- Word文書(.docx): pip install python-docx",
   str "- OpenDocument(.odt): pip install odfpy"]

/-- `doc_to_markdown` lines 184-243: returns the success flag, the printed
lines, and the written file content (`None` when no file is created).  All
exceptions from the body are caught at this boundary: an `ImportError`
prints the library message, any other error prints the diagnostic and the
generic hints. -/
def doc_to_markdown (inp : DocInput) : Bool × List Str × Option Str :=
  if !inp.fileExists then
    (false, [str "エラー: ファイルが見つかりません - " ++ inp.fileName], none)
  else
    let title := str "# " ++ inp.fileName ++ str "\n"
    if inp.ext = str ".docx" then
      if !inp.docxAvailable then
        (false,
          [str "Word文書(.docx)を処理中...", str "ライブラリエラー: " ++ docxImportErrMsg],
          none)
      else
        match inp.docxDoc with
        | Except.error e =>
          (false,
            [str "Word文書(.docx)を処理中...", str "エラーが発生しました: " ++ e] ++ docGenericHints,
            none)
        | Except.ok blocks =>
          (true,
            [str "Word文書(.docx)を処理中...", str "変換完了: " ++ inp.outPath],
            some (joinNl (title :: docx_to_markdown blocks)))
    else if inp.ext = str ".odt" ∨ inp.ext = str ".ods" then
      if !inp.odtAvailable then
        (false,
          [str "OpenDocument形式を処理中...", str "ライブラリエラー: " ++ odtImportErrMsg],
          none)
      else
        match inp.odtDoc with
        | Except.error e =>
          (false,
            [str "OpenDocument形式を処理中...", str "エラーが発生しました: " ++ e] ++ docGenericHints,
            none)
        | Except.ok doc =>
          (true,
            [str "OpenDocument形式を処理中...", str "変換完了: " ++ inp.outPath],
            some (joinNl (title :: odt_to_markdown doc)))
    else
      (false,
        [str "エラー: サポートされていないファイル形式です - " ++ inp.ext,
         str "サポート形式: .docx, .odt"],
        none)

/-- Input state seen by `excel_to_markdown`. -/
structure ExcelInput where
  fileExists : Bool
  fileName : Str
  outPath : Str
  sheets : Except Str (List Sheet)

/-- `excel_to_markdown` lines 6-76: file check, then the sheet walk; any
exception from the body is caught and reported. -/
def excel_to_markdown (inp : ExcelInput) : Bool × List Str × Option Str :=
  if !inp.fileExists then
    (false, [str "エラー: ファイルが見つかりません - " ++ inp.fileName], none)
  else
    match inp.sheets with
    | Except.error e => (false, [str "エラーが発生しました: " ++ e], none)
    | Except.ok sheets =>
      (true, [str "変換完了: " ++ inp.outPath],
        some (joinNl (excelBuildContent inp.fileName sheets)))

/-- Input state seen by `pdf_to_markdown`. -/
structure PdfInput where
  fileExists : Bool
  fileName : Str
  outPath : Str
  pages : Except Str (List PdfPage)

/-- `pdf_to_markdown` lines 84-137: file check, content build per mode; any
exception from the body is caught and reported together with the pdfplumber
installation hint. -/
def pdf_to_markdown (inp : PdfInput) (mode : PdfMode) : Bool × List Str × Option Str :=
  if !inp.fileExists then
    (false, [str "エラー: ファイルが見つかりません - " ++ inp.fileName], none)
  else
    match inp.pages with
    | Except.error e =>
      (false,
        [str "エラーが発生しました: " ++ e,
         str "pdfplumberがインストールされていない場合は、以下のコマンドでインストールしてください:",
         str "pip install pdfplumber"],
        none)
    | Except.ok pages =>
      (true,
        (if mode = PdfMode.text ∨ mode = PdfMode.both then [str "テキストを抽出中..."] else []) ++
          (if mode = PdfMode.tables ∨ mode = PdfMode.both then [str "テーブルを抽出中..."] else []) ++
          [str "変換完了: " ++ inp.outPath],
        some (joinNl (pdfBuildContent inp.fileName pages mode)))

/-- Module import of `pdf_to_markdown.py` lines 4-5: `pdfplumber` and
`pandas` are imported unconditionally at module level, so a missing library
raises before any function of the module can run. -/
def importPdfModule (pdfplumberInstalled pandasInstalled : Bool) : Except Str Unit :=
  if !pdfplumberInstalled then
    Except.error (str "ModuleNotFoundError: No module named pdfplumber")
  else if !pandasInstalled then
    Except.error (str "ModuleNotFoundError: No module named pandas")
  else Except.ok ()

/-- Module import of `excel_to_markdown.py` line 1: `pandas` is imported
unconditionally at module level. -/
def importExcelModule (pandasInstalled : Bool) : Except Str Unit :=
  if !pandasInstalled then
    Except.error (str "ModuleNotFoundError: No module named pandas")
  else Except.ok ()

/-- Module import of `doc_to_markdown.py` lines 10-25: both optional
libraries are imported inside `try`/`except ImportError` blocks that only
set availability flags, so the import always succeeds. -/
def importDocModule (_docxInstalled _odfpyInstalled : Bool) : Except Str Unit :=
  Except.ok ()

/-- Invoking the PDF converter from a fresh process: the module import runs
first; only if it succeeds does the entry point execute. -/
def callPdfConverter (pdfplumberInstalled pandasInstalled : Bool) (inp : PdfInput)
    (mode : PdfMode) : Except Str (Bool × List Str × Option Str) :=
  match importPdfModule pdfplumberInstalled pandasInstalled with
  | Except.error e => Except.error e
  | Except.ok _ => Except.ok (pdf_to_markdown inp mode)

/-- Invoking the spreadsheet converter from a fresh process. -/
def callExcelConverter (pandasInstalled : Bool) (inp : ExcelInput) :
    Except Str (Bool × List Str × Option Str) :=
  match importExcelModule pandasInstalled with
  | Except.error e => Except.error e
  | Except.ok _ => Except.ok (excel_to_markdown inp)

/-- Invoking the document converter from a fresh process. -/
def callDocConverter (docxInstalled odfpyInstalled : Bool) (inp : DocInput) :
    Except Str (Bool × List Str × Option Str) :=
  match importDocModule docxInstalled odfpyInstalled with
  | Except.error e => Except.error e
  | Except.ok _ => Except.ok (doc_to_markdown inp)

/-! ### General helper lemmas -/

theorem concatMap_cons {α β : Type} (f : α → List β) (x : α) (xs : List α) :
    concatMap f (x :: xs) = f x ++ concatMap f xs := rfl

theorem foldl_append_eq_concatMap {α β : Type} (f : α → List β) :
    ∀ (l : List α) (init : List β),
      List.foldl (fun buf x => buf ++ f x) init l = init ++ concatMap f l := by
  intro l
  induction l with
  | nil => intro init; simp [concatMap]
  | cons x xs ih =>
    intro init
    simp only [List.foldl_cons, concatMap, ih (init ++ f x), List.append_assoc]

theorem concatTexts_append (l₁ l₂ : List Run) :
    concatTexts (l₁ ++ l₂) = concatTexts l₁ ++ concatTexts l₂ := by
  induction l₁ with
  | nil => simp [concatTexts]
  | cons r rs ih => simp [concatTexts, ih, List.append_assoc]

theorem renderRuns_append (l₁ l₂ : List Run) :
    renderRuns (l₁ ++ l₂) = renderRuns l₁ ++ renderRuns l₂ := by
  induction l₁ with
  | nil => simp [renderRuns]
  | cons r rs ih => simp [renderRuns, ih, List.append_assoc]

/-! ### Lemmas about `replaceGoF` / `pyReplace` -/

theorem replaceGoF_cons_pos (p r : Str) (fuel : Nat) (c : Char) (cs : Str)
    (h : p.isPrefixOf (c :: cs) = true) (hp : p ≠ []) :
    replaceGoF p r (fuel + 1) (c :: cs) =
      r ++ replaceGoF p r fuel ((c :: cs).drop p.length) := by
  simp [replaceGoF, h, List.isEmpty_iff, hp]

theorem replaceGoF_cons_neg (p r : Str) (fuel : Nat) (c : Char) (cs : Str)
    (h : p.isPrefixOf (c :: cs) = false) :
    replaceGoF p r (fuel + 1) (c :: cs) = c :: replaceGoF p r fuel cs := by
  simp [replaceGoF, h]

theorem replaceGoF_no_occ (p r : Str) (hp : p ≠ []) :
    ∀ (fuel : Nat) (s : Str), s.length ≤ fuel →
      (∀ a b, s ≠ a ++ p ++ b) → replaceGoF p r fuel s = s := by
  intro fuel
  induction fuel with
  | zero =>
    intro s hlen _
    have hs : s = [] := List.length_eq_zero.mp (Nat.le_zero.mp hlen)
    subst hs; rfl
  | succ fuel ih =>
    intro s hlen hno
    cases s with
    | nil => rfl
    | cons c cs =>
      cases hpre : p.isPrefixOf (c :: cs) with
      | true =>
        exfalso
        rcases List.isPrefixOf_iff_prefix.mp hpre with ⟨t, ht⟩
        exact hno [] t (by simpa using ht.symm)
      | false =>
        rw [replaceGoF_cons_neg p r fuel c cs hpre]
        have hcs : cs.length ≤ fuel := by simp at hlen; omega
        rw [ih cs hcs (fun a b h => hno (c :: a) b (by simp [h]))]

theorem replaceGoF_unique (p r : Str) (hp : p ≠ []) :
    ∀ (fuel : Nat) (A B : Str), (A ++ p ++ B).length ≤ fuel →
      (∀ a b, A ++ p ++ B = a ++ p ++ b → a = A) →
      replaceGoF p r fuel (A ++ p ++ B) = A ++ r ++ B := by
  intro fuel
  induction fuel with
  | zero =>
    intro A B hlen _
    exfalso
    have hlp : 0 < p.length := List.length_pos.mpr hp
    simp only [List.length_append] at hlen
    omega
  | succ fuel ih =>
    intro A B hlen huniq
    cases A with
    | nil =>
      rcases p with _ | ⟨p0, pt⟩
      · exact absurd rfl hp
      have hshape : ([] : Str) ++ (p0 :: pt) ++ B = p0 :: (pt ++ B) := by simp
      rw [hshape]
      have hpre : (p0 :: pt).isPrefixOf (p0 :: (pt ++ B)) = true := by
        apply List.isPrefixOf_iff_prefix.mpr
        exact ⟨B, by simp⟩
      rw [replaceGoF_cons_pos (p0 :: pt) r fuel p0 (pt ++ B) hpre hp]
      have hdrop : (p0 :: (pt ++ B)).drop (p0 :: pt).length = B := by
        have := List.drop_left (p0 :: pt) B
        simpa using this
      rw [hdrop]
      have hB : replaceGoF (p0 :: pt) r fuel B = B := by
        apply replaceGoF_no_occ (p0 :: pt) r hp fuel B
        · simp only [List.length_append, List.length_cons] at hlen ⊢
          omega
        · intro a b hB
          have h2 : ([] : Str) ++ (p0 :: pt) ++ B =
              ((p0 :: pt) ++ a) ++ (p0 :: pt) ++ b := by
            simp [hB, List.append_assoc]
          have := huniq ((p0 :: pt) ++ a) b h2
          simp at this
      rw [hB]; simp
    | cons c A₁ =>
      have hshape : (c :: A₁) ++ p ++ B = c :: (A₁ ++ p ++ B) := by simp
      rw [hshape]
      cases hpre : p.isPrefixOf (c :: (A₁ ++ p ++ B)) with
      | true =>
        exfalso
        rcases List.isPrefixOf_iff_prefix.mp hpre with ⟨t, ht⟩
        have h2 : (c :: A₁) ++ p ++ B = ([] : Str) ++ p ++ t := by
          rw [List.nil_append, ht]
          simp
        have := huniq [] t h2
        simp at this
      | false =>
        rw [replaceGoF_cons_neg p r fuel c _ hpre]
        have ihA := ih A₁ B
          (by simp only [List.length_append, List.length_cons] at hlen ⊢; omega)
          (fun a b h => by
            have h2 : (c :: A₁) ++ p ++ B = (c :: a) ++ p ++ b := by simp [h]
            simpa using huniq (c :: a) b h2)
        rw [ihA]; simp

theorem pyReplace_of_ne_nil (p r s : Str) (hp : p ≠ []) :
    pyReplace p r s = replaceGoF p r s.length s := by
  simp [pyReplace, List.isEmpty_iff, hp]

theorem pyReplace_unique (p r A B : Str) (hp : p ≠ [])
    (huniq : ∀ a b, A ++ p ++ B = a ++ p ++ b → a = A) :
    pyReplace p r (A ++ p ++ B) = A ++ r ++ B := by
  rw [pyReplace_of_ne_nil p r _ hp]
  exact replaceGoF_unique p r hp _ A B le_rfl huniq

theorem pyReplace_no_occ (p r s : Str) (hp : p ≠ [])
    (hno : ∀ a b, s ≠ a ++ p ++ b) : pyReplace p r s = s := by
  rw [pyReplace_of_ne_nil p r _ hp]
  exact replaceGoF_no_occ p r hp _ s le_rfl hno

theorem not_mem_replaceGoF_single (x : Char) (r : Str) (hx : x ∉ r) :
    ∀ (fuel : Nat) (s : Str), x ∉ replaceGoF [x] r fuel s := by
  intro fuel
  induction fuel with
  | zero => intro s; simp [replaceGoF]
  | succ fuel ih =>
    intro s
    cases s with
    | nil => simp [replaceGoF]
    | cons c cs =>
      cases hpre : ([x] : Str).isPrefixOf (c :: cs) with
      | true =>
        rw [replaceGoF_cons_pos [x] r fuel c cs hpre (by simp)]
        intro hmem
        rcases List.mem_append.mp hmem with h | h
        · exact hx h
        · exact ih _ h
      | false =>
        rw [replaceGoF_cons_neg [x] r fuel c cs hpre]
        intro hmem
        rcases List.mem_cons.mp hmem with h | h
        · subst h
          simp [List.isPrefixOf] at hpre
        · exact ih cs h

theorem not_mem_pyReplace_single (x : Char) (r s : Str) (hx : x ∉ r) :
    x ∉ pyReplace [x] r s := by
  rw [pyReplace_of_ne_nil _ _ _ (by simp)]
  exact not_mem_replaceGoF_single x r hx _ s

/-! ### Star-erasure machinery for the emphasis-substitution proof -/

/-- Erase every asterisk; on a string whose non-marker characters are
asterisk-free this recovers the text underlying the emphasis markers. -/
def eraseStar (s : Str) : Str := s.filter (fun c => c != '*')

theorem eraseStar_append (s t : Str) : eraseStar (s ++ t) = eraseStar s ++ eraseStar t :=
  List.filter_append s t

theorem eraseStar_of_starFree {s : Str} (h : '*' ∉ s) : eraseStar s = s := by
  apply List.filter_eq_self.mpr
  intro a ha
  simp only [bne_iff_ne, ne_eq]
  intro heq
  exact h (heq ▸ ha)

theorem mem_star_of_eraseStar_eq_nil {s : Str} (h : eraseStar s = []) :
    ∀ c ∈ s, c = '*' := by
  intro c hc
  have := List.filter_eq_nil_iff.mp h c hc
  simpa using this

theorem concatTexts_starFree {runs : List Run} (h : ∀ r ∈ runs, '*' ∉ r.text) :
    '*' ∉ concatTexts runs := by
  induction runs with
  | nil => simp [concatTexts]
  | cons r rs ih =>
    simp only [concatTexts, List.mem_append]
    rintro (hm | hm)
    · exact h r (by simp) hm
    · exact ih (fun q hq => h q (by simp [hq])) hm

theorem eraseStar_runWrap {r : Run} (h : '*' ∉ r.text) : eraseStar (runWrap r) = r.text := by
  have htext := eraseStar_of_starFree h
  have h1 : eraseStar (str "*") = [] := by decide
  have h2 : eraseStar (str "**") = [] := by decide
  have h3 : eraseStar (str "***") = [] := by decide
  cases hb : r.bold <;> cases hi : r.italic <;>
    simp [runWrap, hb, hi, eraseStar_append, htext, h1, h2, h3]

theorem eraseStar_renderRuns {runs : List Run} (h : ∀ r ∈ runs, '*' ∉ r.text) :
    eraseStar (renderRuns runs) = concatTexts runs := by
  induction runs with
  | nil => rfl
  | cons r rs ih =>
    simp only [renderRuns, concatTexts, eraseStar_append]
    rw [eraseStar_runWrap (h r (by simp)), ih (fun q hq => h q (by simp [hq]))]

/-- Lifting the uniqueness of an occurrence from the plain concatenated
text to a partially star-decorated version of it. -/
theorem uniqueLift (S X p B : Str) (hS : eraseStar S = X) (hp : p ≠ [])
    (hpStar : '*' ∉ p) (hBStar : '*' ∉ B) (hXStar : '*' ∉ X)
    (hu : ∀ a b, X ++ p ++ B = a ++ p ++ b → a = X) :
    ∀ a b, S ++ p ++ B = a ++ p ++ b → a = S := by
  intro a b heq
  have hep : eraseStar p = p := eraseStar_of_starFree hpStar
  have heB : eraseStar B = B := eraseStar_of_starFree hBStar
  have herase : X ++ p ++ B = eraseStar a ++ p ++ eraseStar b := by
    have h1 : eraseStar (S ++ p ++ B) = X ++ p ++ B := by
      simp [eraseStar_append, hS, hep, heB]
    have h2 : eraseStar (a ++ p ++ b) = eraseStar a ++ p ++ eraseStar b := by
      simp [eraseStar_append, hep]
    rw [← h1, heq, h2]
  have hea : eraseStar a = X := hu (eraseStar a) (eraseStar b) herase
  have heq2 : S ++ (p ++ B) = a ++ (p ++ b) := by simpa [List.append_assoc] using heq
  rcases List.append_eq_append_iff.mp heq2 with ⟨d, hd1, hd2⟩ | ⟨d, hd1, hd2⟩
  · -- `a = S ++ d` and `p ++ B = d ++ (p ++ b)`
    have hde : eraseStar d = [] := by
      have : eraseStar a = eraseStar S ++ eraseStar d := by rw [hd1, eraseStar_append]
      rw [hea, hS] at this
      have := List.append_cancel_left (by simpa using this.symm : X ++ [] = X ++ eraseStar d)
      exact this.symm
    cases d with
    | nil => simpa using hd1
    | cons e d₁ =>
      exfalso
      have he : e = '*' := mem_star_of_eraseStar_eq_nil hde e (by simp)
      rcases p with _ | ⟨p0, pt⟩
      · exact hp rfl
      · have : p0 = e := by
          have := hd2
          simp only [List.cons_append] at this
          exact (List.cons.injEq _ _ _ _ ▸ this) |>.1
        exact hpStar (by simpa [this, he] using List.mem_cons_self p0 pt)
  · -- `S = a ++ d` and `p ++ b = d ++ (p ++ B)`
    have hde : eraseStar d = [] := by
      have : eraseStar S = eraseStar a ++ eraseStar d := by rw [hd1, eraseStar_append]
      rw [hea, hS] at this
      have := List.append_cancel_left (by simpa using this : X ++ [] = X ++ eraseStar d)
      exact this.symm
    cases d with
    | nil => simpa using hd1.symm
    | cons e d₁ =>
      exfalso
      have he : e = '*' := mem_star_of_eraseStar_eq_nil hde e (by simp)
      rcases p with _ | ⟨p0, pt⟩
      · exact hp rfl
      · have : p0 = e := by
          have := hd2
          simp only [List.cons_append] at this
          exact (List.cons.injEq _ _ _ _ ▸ this) |>.1
        exact hpStar (by simpa [this, he] using List.mem_cons_self p0 pt)

theorem fmtStep_eq (acc : Str) (r : Run) :
    fmtStep acc r = if runFormatted r then pyReplace r.text (runWrap r) acc else acc := by
  cases hb : r.bold <;> cases hi : r.italic <;>
    simp [fmtStep, runWrap, runFormatted, hb, hi]

theorem runWrap_of_not_formatted {r : Run} (h : runFormatted r = false) : runWrap r = r.text := by
  have hb : r.bold = false := by
    cases hb : r.bold
    · rfl
    · rw [runFormatted, hb] at h; simp at h
  have hi : r.italic = false := by
    cases hi : r.italic
    · rfl
    · rw [runFormatted, hi] at h; simp at h
  simp [runWrap, hb, hi]

/-- Invariant of the emphasis loop: after the runs in `done` have been
processed the buffer is their rendering followed by the untouched texts of
the remaining runs, and processing the rest yields the full rendering. -/
theorem docxFormatRuns_loop (full : List Run)
    (hstar : ∀ r ∈ full, '*' ∉ r.text)
    (hne : ∀ r ∈ full, runFormatted r = true → r.text ≠ [])
    (huniq : ∀ d₁ r d₂, full = d₁ ++ r :: d₂ → runFormatted r = true →
      ∀ a b, concatTexts full = a ++ r.text ++ b → a = concatTexts d₁) :
    ∀ rest done, full = done ++ rest →
      List.foldl fmtStep (renderRuns done ++ concatTexts rest) rest = renderRuns full := by
  intro rest
  induction rest with
  | nil =>
    intro done h
    simp only [List.foldl_nil, concatTexts, List.append_nil]
    rw [h, List.append_nil]
  | cons r rest ih =>
    intro done h
    have hrfull : r ∈ full := by
      rw [h]; exact List.mem_append.mpr (Or.inr (List.mem_cons_self r rest))
    have hfull2 : full = (done ++ [r]) ++ rest := by
      rw [h]; simp
    have hinit : renderRuns done ++ concatTexts (r :: rest) =
        (renderRuns done ++ r.text) ++ concatTexts rest := by
      simp [concatTexts, List.append_assoc]
    rw [List.foldl_cons, fmtStep_eq]
    cases hfmt : runFormatted r with
    | false =>
      rw [if_neg (by simp [hfmt])]
      have hstep : renderRuns done ++ concatTexts (r :: rest) =
          renderRuns (done ++ [r]) ++ concatTexts rest := by
        rw [hinit, renderRuns_append]
        simp [renderRuns, runWrap_of_not_formatted hfmt]
      rw [hstep]
      exact ih (done ++ [r]) hfull2
    | true =>
      rw [if_pos rfl]
      have hp : r.text ≠ [] := hne r hrfull hfmt
      have hpStar : '*' ∉ r.text := hstar r hrfull
      have hBStar : '*' ∉ concatTexts rest :=
        concatTexts_starFree (fun q hq =>
          hstar q (by rw [h]; exact List.mem_append.mpr (Or.inr (List.mem_cons_of_mem r hq))))
      have hXStar : '*' ∉ concatTexts done :=
        concatTexts_starFree (fun q hq =>
          hstar q (by rw [h]; exact List.mem_append.mpr (Or.inl hq)))
      have hS : eraseStar (renderRuns done) = concatTexts done :=
        eraseStar_renderRuns (fun q hq =>
          hstar q (by rw [h]; exact List.mem_append.mpr (Or.inl hq)))
      have hT : concatTexts full = concatTexts done ++ r.text ++ concatTexts rest := by
        rw [h, concatTexts_append]
        simp [concatTexts, List.append_assoc]
      have hu : ∀ a b, concatTexts done ++ r.text ++ concatTexts rest =
          a ++ r.text ++ b → a = concatTexts done := by
        intro a b hab
        exact huniq done r rest h hfmt a b (hT ▸ hab)
      have hlift := uniqueLift (renderRuns done) (concatTexts done) r.text
        (concatTexts rest) hS hp hpStar hBStar hXStar hu
      have hrepl : pyReplace r.text (runWrap r) (renderRuns done ++ concatTexts (r :: rest)) =
          renderRuns done ++ runWrap r ++ concatTexts rest := by
        rw [hinit]
        exact pyReplace_unique r.text (runWrap r) (renderRuns done) (concatTexts rest) hp hlift
      rw [hrepl]
      have hstep : renderRuns done ++ runWrap r ++ concatTexts rest =
          renderRuns (done ++ [r]) ++ concatTexts rest := by
        rw [renderRuns_append]
        simp [renderRuns]
      rw [hstep]
      exact ih (done ++ [r]) hfull2

/-! ### Lemmas about `clean_text` -/

/-- The relation holding between adjacent characters of a cleaned string:
at most one of the two is whitespace. -/
def SpacedOk (a b : Char) : Prop := isPySpace a = false ∨ isPySpace b = false

theorem spacedOk_symm {a b : Char} (h : SpacedOk a b) : SpacedOk b a := Or.symm h

theorem collapseGo_mem_space :
    ∀ (s : Str) (b : Bool) (c : Char), c ∈ collapseGo b s → isPySpace c = true → c = ' ' := by
  intro s
  induction s with
  | nil => intro b c hc; simp [collapseGo] at hc
  | cons c0 cs ih =>
    intro b c hc hsp
    cases hsp0 : isPySpace c0 with
    | true =>
      cases b with
      | true =>
        rw [show collapseGo true (c0 :: cs) = collapseGo true cs by simp [collapseGo, hsp0]] at hc
        exact ih true c hc hsp
      | false =>
        rw [show collapseGo false (c0 :: cs) = ' ' :: collapseGo true cs by
          simp [collapseGo, hsp0]] at hc
        rcases List.mem_cons.mp hc with h | h
        · exact h
        · exact ih true c h hsp
    | false =>
      rw [show collapseGo b (c0 :: cs) = c0 :: collapseGo false cs by
        simp [collapseGo, hsp0]] at hc
      rcases List.mem_cons.mp hc with h | h
      · subst h; rw [hsp] at hsp0; exact absurd hsp0 (by simp)
      · exact ih false c h hsp

theorem collapseGo_true_head :
    ∀ (s : Str) (c : Char), (collapseGo true s).head? = some c → isPySpace c = false := by
  intro s
  induction s with
  | nil => intro c hc; simp [collapseGo] at hc
  | cons c0 cs ih =>
    intro c hc
    cases hsp0 : isPySpace c0 with
    | true =>
      rw [show collapseGo true (c0 :: cs) = collapseGo true cs by simp [collapseGo, hsp0]] at hc
      exact ih c hc
    | false =>
      rw [show collapseGo true (c0 :: cs) = c0 :: collapseGo false cs by
        simp [collapseGo, hsp0]] at hc
      simp only [List.head?_cons, Option.some.injEq] at hc
      rw [← hc]; exact hsp0

theorem collapseGo_chain :
    ∀ (s : Str) (b : Bool), List.Chain' SpacedOk (collapseGo b s) := by
  intro s
  induction s with
  | nil => intro b; simp [collapseGo]
  | cons c0 cs ih =>
    intro b
    cases hsp0 : isPySpace c0 with
    | true =>
      cases b with
      | true =>
        rw [show collapseGo true (c0 :: cs) = collapseGo true cs by simp [collapseGo, hsp0]]
        exact ih true
      | false =>
        rw [show collapseGo false (c0 :: cs) = ' ' :: collapseGo true cs by
          simp [collapseGo, hsp0]]
        apply List.chain'_cons'.mpr
        refine ⟨fun y hy => Or.inr (collapseGo_true_head cs y ?_), ih true⟩
        simpa using hy
    | false =>
      rw [show collapseGo b (c0 :: cs) = c0 :: collapseGo false cs by
        simp [collapseGo, hsp0]]
      apply List.chain'_cons'.mpr
      exact ⟨fun y _ => Or.inl hsp0, ih false⟩

theorem collapseGo_id :
    ∀ (s : Str) (b : Bool), (∀ c ∈ s, isPySpace c = true → c = ' ') →
      List.Chain' SpacedOk s →
      (b = true → ∀ c, s.head? = some c → isPySpace c = false) →
      collapseGo b s = s := by
  intro s
  induction s with
  | nil => intro b _ _ _; rfl
  | cons c0 cs ih =>
    intro b hall hchain hhead
    cases hsp0 : isPySpace c0 with
    | true =>
      have hb : b = false := by
        cases b with
        | false => rfl
        | true =>
          have := hhead rfl c0 (by simp)
          rw [hsp0] at this; exact absurd this (by simp)
      subst hb
      rw [show collapseGo false (c0 :: cs) = ' ' :: collapseGo true cs by
        simp [collapseGo, hsp0]]
      have hc0 : c0 = ' ' := hall c0 (by simp) hsp0
      rw [ih true (fun c hc => hall c (by simp [hc]))
        (List.chain'_cons'.mp hchain).2
        (fun _ c hc => by
          rcases (List.chain'_cons'.mp hchain).1 c (by simpa using hc) with h | h
          · rw [hsp0] at h; exact absurd h (by simp)
          · exact h)]
      rw [hc0]
    | false =>
      rw [show collapseGo b (c0 :: cs) = c0 :: collapseGo false cs by
        simp [collapseGo, hsp0]]
      rw [ih false (fun c hc => hall c (by simp [hc]))
        (List.chain'_cons'.mp hchain).2 (by simp)]

theorem head?_dropWhile_not (q : Char → Bool) :
    ∀ (l : Str) (c : Char), (l.dropWhile q).head? = some c → q c = false := by
  intro l
  induction l with
  | nil => intro c hc; simp [List.dropWhile] at hc
  | cons x xs ih =>
    intro c hc
    cases hq : q x with
    | true =>
      rw [List.dropWhile_cons, if_pos (by simp [hq])] at hc
      exact ih c hc
    | false =>
      rw [List.dropWhile_cons, if_neg (by simp [hq])] at hc
      simp only [List.head?_cons, Option.some.injEq] at hc
      rw [← hc]; exact hq

theorem chain_dropWhile {l : Str} (q : Char → Bool) (h : List.Chain' SpacedOk l) :
    List.Chain' SpacedOk (l.dropWhile q) :=
  h.suffix (List.dropWhile_suffix q)

theorem chain_reverse_spacedOk {l : Str} (h : List.Chain' SpacedOk l) :
    List.Chain' SpacedOk l.reverse :=
  List.chain'_reverse.mpr (List.Chain'.imp (fun _ _ hab => spacedOk_symm hab) h)

theorem stripRight_getLast? {s : Str} {c : Char}
    (h : (stripRight s).getLast? = some c) : isPySpace c = false := by
  rw [stripRight, List.getLast?_reverse] at h
  exact head?_dropWhile_not isPySpace s.reverse c h

theorem stripRight_subset {s : Str} : ∀ c, c ∈ stripRight s → c ∈ s := by
  intro c hc
  rw [stripRight, List.mem_reverse] at hc
  exact List.mem_reverse.mp ((List.dropWhile_suffix isPySpace).subset hc)

theorem stripRight_chain {s : Str} (h : List.Chain' SpacedOk s) :
    List.Chain' SpacedOk (stripRight s) :=
  chain_reverse_spacedOk (chain_dropWhile isPySpace (chain_reverse_spacedOk h))

theorem stripRight_isPrefix (s : Str) : stripRight s <+: s := by
  rw [stripRight]
  have hsuffix : (s.reverse.dropWhile isPySpace) <:+ s.reverse := List.dropWhile_suffix _
  have : (s.reverse.dropWhile isPySpace).reverse.reverse <:+ s.reverse := by
    rwa [List.reverse_reverse]
  exact List.reverse_suffix.mp this

theorem isPrefix_head? {l₁ l₂ : Str} {c : Char} (h : l₁ <+: l₂)
    (hc : l₁.head? = some c) : l₂.head? = some c := by
  rcases h with ⟨t, rfl⟩
  cases l₁ with
  | nil => simp at hc
  | cons x xs => simpa using hc

theorem stripWs_head? {s : Str} {c : Char} (h : (stripWs s).head? = some c) :
    isPySpace c = false := by
  rw [stripWs] at h
  have := isPrefix_head? (stripRight_isPrefix (s.dropWhile isPySpace)) h
  exact head?_dropWhile_not isPySpace s c this

theorem stripWs_getLast? {s : Str} {c : Char} (h : (stripWs s).getLast? = some c) :
    isPySpace c = false := stripRight_getLast? h

theorem stripWs_subset {s : Str} : ∀ c, c ∈ stripWs s → c ∈ s := by
  intro c hc
  rw [stripWs] at hc
  exact (List.dropWhile_suffix isPySpace).subset (stripRight_subset c hc)

theorem stripWs_chain {s : Str} (h : List.Chain' SpacedOk s) :
    List.Chain' SpacedOk (stripWs s) :=
  stripRight_chain (chain_dropWhile isPySpace h)

theorem dropWhile_id_of_head {s : Str} (q : Char → Bool)
    (h : ∀ c, s.head? = some c → q c = false) : s.dropWhile q = s := by
  cases s with
  | nil => rfl
  | cons x xs =>
    rw [List.dropWhile_cons, if_neg (by simp [h x (by simp)])]

theorem stripRight_id_of_getLast {s : Str}
    (h : ∀ c, s.getLast? = some c → isPySpace c = false) : stripRight s = s := by
  rw [stripRight, dropWhile_id_of_head isPySpace
    (fun c hc => h c (by rwa [List.head?_reverse] at hc)), List.reverse_reverse]

theorem stripWs_id {s : Str}
    (hh : ∀ c, s.head? = some c → isPySpace c = false)
    (hl : ∀ c, s.getLast? = some c → isPySpace c = false) : stripWs s = s := by
  rw [stripWs, dropWhile_id_of_head isPySpace hh, stripRight_id_of_getLast hl]

theorem clean_mem_space {s : Str} :
    ∀ c ∈ clean_text (some s), isPySpace c = true → c = ' ' := by
  intro c hc hsp
  have : c ∈ collapseWs s := stripWs_subset c hc
  exact collapseGo_mem_space s false c this hsp

theorem clean_head {s : Str} {c : Char}
    (h : (clean_text (some s)).head? = some c) : isPySpace c = false := stripWs_head? h

theorem clean_getLast {s : Str} {c : Char}
    (h : (clean_text (some s)).getLast? = some c) : isPySpace c = false := stripWs_getLast? h

theorem clean_chain {s : Str} : List.Chain' SpacedOk (clean_text (some s)) :=
  stripWs_chain (collapseGo_chain s false)

theorem clean_idem (s : Str) :
    clean_text (some (clean_text (some s))) = clean_text (some s) := by
  show stripWs (collapseWs (clean_text (some s))) = clean_text (some s)
  rw [show collapseWs (clean_text (some s)) = clean_text (some s) from
    collapseGo_id _ false (fun c hc => clean_mem_space c hc) clean_chain (by simp)]
  exact stripWs_id (fun c hc => clean_head hc) (fun c hc => clean_getLast hc)

theorem noConsecWsB_iff_chain :
    ∀ (l : Str), noConsecWsB l = true ↔ List.Chain' SpacedOk l := by
  intro l
  induction l with
  | nil => simp [noConsecWsB]
  | cons c1 cs ih =>
    cases cs with
    | nil => simp [noConsecWsB]
    | cons c2 rest =>
      rw [show noConsecWsB (c1 :: c2 :: rest) =
        ((!(isPySpace c1 && isPySpace c2)) && noConsecWsB (c2 :: rest)) from rfl]
      rw [List.chain'_cons]
      constructor
      · intro h
        rcases Bool.and_eq_true_iff.mp h with ⟨h1, h2⟩
        exact ⟨by simpa [SpacedOk] using h1, ih.mp h2⟩
      · rintro ⟨h1, h2⟩
        apply Bool.and_eq_true_iff.mpr
        refine ⟨?_, ih.mpr h2⟩
        rcases h1 with h3 | h3 <;> simp [h3]

theorem newline_not_mem_clean (o : Option Str) : '\n' ∉ clean_text o := by
  cases o with
  | none => simp [clean_text]
  | some s =>
    intro hmem
    have := clean_mem_space '\n' hmem (by decide)
    simp at this

theorem pyReplace_skip_clean (s : Str) :
    pyReplace (str "\n") (str "<br>") (clean_text (some s)) = clean_text (some s) := by
  apply pyReplace_no_occ _ _ _ (by decide)
  intro a b hab
  apply newline_not_mem_clean (some s)
  rw [hab]
  exact List.mem_append.mpr (Or.inl (List.mem_append.mpr (Or.inr (by decide))))

/-! ### Newline-freedom of emitted table rows -/

theorem mem_joinPipe {x : Char} :
    ∀ {cells : List Str}, x ∈ joinPipe cells → x = '|' ∨ ∃ cell ∈ cells, x ∈ cell := by
  intro cells
  induction cells with
  | nil => intro h; simp [joinPipe] at h
  | cons c cs ih =>
    intro h
    cases cs with
    | nil =>
      rw [show joinPipe [c] = c from rfl] at h
      exact Or.inr ⟨c, by simp, h⟩
    | cons c' cs' =>
      rw [show joinPipe (c :: c' :: cs') = c ++ '|' :: joinPipe (c' :: cs') from rfl] at h
      rcases List.mem_append.mp h with h | h
      · exact Or.inr ⟨c, by simp, h⟩
      · rcases List.mem_cons.mp h with h | h
        · exact Or.inl h
        · rcases ih h with h | ⟨cell, hcell, hmem⟩
          · exact Or.inl h
          · exact Or.inr ⟨cell, by simp [hcell], hmem⟩

theorem not_mem_pipeLine {x : Char} (hx : x ≠ '|') {cells : List Str}
    (h : ∀ cell ∈ cells, x ∉ cell) : x ∉ pipeLine cells := by
  intro hmem
  rw [pipeLine] at hmem
  rcases List.mem_cons.mp hmem with h1 | h1
  · exact hx h1
  · rcases List.mem_append.mp h1 with h2 | h2
    · rcases mem_joinPipe h2 with h3 | ⟨cell, hcell, hmem2⟩
      · exact hx h3
      · exact h cell hcell hmem2
    · exact hx (by simpa using h2)

theorem newline_not_mem_pyReplace (v : Str) :
    '\n' ∉ pyReplace (str "\n") (str "<br>") v :=
  not_mem_pyReplace_single '\n' (str "<br>") v (by decide)

theorem docxRenderTable_no_newline (rows : List (List Str)) :
    ∀ line ∈ docxRenderTable rows, '\n' ∉ line := by
  intro line hline
  cases rows with
  | nil => simp [docxRenderTable] at hline
  | cons r0 rest =>
    simp only [docxRenderTable, List.cons_append, List.nil_append, List.mem_cons,
      List.mem_append, List.mem_map, List.mem_singleton] at hline
    rcases hline with rfl | hline
    · simp
    rcases hline with rfl | hline
    · exact not_mem_pipeLine (by decide) (by
        intro cell hcell
        rcases List.mem_map.mp hcell with ⟨c, _, rfl⟩
        exact newline_not_mem_clean (some c))
    rcases hline with rfl | hline
    · exact not_mem_pipeLine (by decide) (by
        intro cell hcell
        rcases List.mem_map.mp hcell with ⟨c, _, rfl⟩
        decide)
    rcases hline with ⟨row, _, rfl⟩ | hline
    · exact not_mem_pipeLine (by decide) (by
        intro cell hcell
        rcases List.mem_map.mp hcell with ⟨c, _, rfl⟩
        exact newline_not_mem_pyReplace _)
    · have hl : line = [] := by simpa using hline
      simp [hl]

theorem odtRenderTable_no_newline (rows : List (List OdtNode)) :
    ∀ line ∈ odtRenderTable rows, '\n' ∉ line := by
  intro line hline
  cases rows with
  | nil => simp [odtRenderTable] at hline; simp [hline]
  | cons r0 rest =>
    simp only [odtRenderTable, List.map_cons, List.cons_append, List.nil_append,
      List.mem_cons, List.mem_append, List.mem_map, List.mem_singleton] at hline
    rcases hline with rfl | hline
    · simp
    rcases hline with rfl | hline
    · exact not_mem_pipeLine (by decide) (by
        intro cell hcell
        rcases List.mem_map.mp hcell with ⟨c, _, rfl⟩
        exact newline_not_mem_clean _)
    rcases hline with rfl | hline
    · exact not_mem_pipeLine (by decide) (by
        intro cell hcell
        rcases List.mem_map.mp hcell with ⟨c, _, rfl⟩
        decide)
    rcases hline with ⟨row, _, rfl⟩ | hline
    · exact not_mem_pipeLine (by decide) (by
        intro cell hcell
        rcases List.mem_map.mp hcell with ⟨c, _, rfl⟩
        exact newline_not_mem_pyReplace _)
    · have hl : line = [] := by simpa using hline
      simp [hl]

theorem pdfCleanTable_cell_clean {tbl : List (List (Option Str))} {r : List Str}
    (hr : r ∈ pdfCleanTable tbl) : ∀ c ∈ r, '\n' ∉ c := by
  intro c hc
  have hr2 : r ∈ tbl.map (fun row => row.map pdfCleanCell) := List.mem_of_mem_filter hr
  rcases List.mem_map.mp hr2 with ⟨row, _, rfl⟩
  rcases List.mem_map.mp hc with ⟨v, _, rfl⟩
  cases v with
  | none => simp [pdfCleanCell]
  | some t => exact newline_not_mem_clean (some t)

theorem pdfRenderTable_no_newline (pn nt tn : Nat) (tbl : List (List (Option Str))) :
    ∀ line ∈ pdfRenderTable pn nt tn tbl,
      line ≠ pdfSubheading pn nt tn → '\n' ∉ line := by
  intro line hline hne
  rw [pdfRenderTable] at hline
  by_cases hempty : tbl.isEmpty
  · rw [if_pos hempty] at hline; simp at hline
  rw [if_neg hempty] at hline
  cases hclean : pdfCleanTable tbl with
  | nil => rw [hclean] at hline; simp at hline; exact absurd hline hne
  | cons r0 rest =>
    rw [hclean] at hline
    simp only [List.cons_append, List.nil_append, List.mem_cons, List.mem_append,
      List.mem_map, List.mem_singleton] at hline
    rcases hline with rfl | hline
    · exact absurd rfl hne
    rcases hline with rfl | hline
    · exact not_mem_pipeLine (by decide)
        (pdfCleanTable_cell_clean (hclean ▸ List.mem_cons_self r0 rest))
    rcases hline with rfl | hline
    · exact not_mem_pipeLine (by decide) (by
        intro cell hcell
        rcases List.mem_map.mp hcell with ⟨c, _, rfl⟩
        decide)
    rcases hline with ⟨row, hrow, rfl⟩ | hline
    · exact not_mem_pipeLine (by decide) (by
        intro cell hcell
        rcases List.mem_map.mp hcell with ⟨c, _, rfl⟩
        exact newline_not_mem_pyReplace _)
    · have hl : line = [] := by simpa using hline
      simp [hl]

theorem excelRowLine_no_newline (r : List (Option Str)) : '\n' ∉ excelRowLine r := by
  apply not_mem_pipeLine (by decide)
  intro cell hcell
  rcases List.mem_map.mp hcell with ⟨v, _, rfl⟩
  cases v with
  | none => simp
  | some t => exact newline_not_mem_pyReplace t

/-! ### Claim theorems -/

/-- Claim C1, counterexample: a Word table cell whose raw text is `a\nb`
renders as `|a b|` — the newline was collapsed to a space by `clean_text`,
and the literal `<br>` never appears — refuting the claim that `<br>` is
substituted for every newline in cells of all converters. -/
theorem claim_c1_counterexample :
    docxRenderTable [[str "h"], [str "a\nb"]] =
      [[], str "|h|", str "|---|", str "|a b|", []] ∧
    containsSub (str "<br>") (str "|a b|") = false := by decide

/-- Claim C1 (amended): in the Word, OpenDocument and PDF table renderers
each cell is cleaned first, which collapses every newline to a space, so
the subsequent `<br>` substitution never fires and no raw newline remains
in any emitted table line (in the PDF renderer, any line other than the
page subheading); in the spreadsheet converter the data-row cells really do
substitute `<br>` for newlines, so its data-row lines contain no raw
newline either. -/
theorem claim_c1_amended :
    (∀ s : Str, pyReplace (str "\n") (str "<br>") (clean_text (some s)) = clean_text (some s) ∧
      '\n' ∉ clean_text (some s)) ∧
    (∀ v : Str, '\n' ∉ pyReplace (str "\n") (str "<br>") v) ∧
    (∀ (rows : List (List Str)), ∀ line ∈ docxRenderTable rows, '\n' ∉ line) ∧
    (∀ (rows : List (List OdtNode)), ∀ line ∈ odtRenderTable rows, '\n' ∉ line) ∧
    (∀ (pn nt tn : Nat) (tbl : List (List (Option Str))),
      ∀ line ∈ pdfRenderTable pn nt tn tbl, line ≠ pdfSubheading pn nt tn → '\n' ∉ line) ∧
    (∀ r : List (Option Str), '\n' ∉ excelRowLine r) := by
  refine ⟨?_, ?_, ?_, ?_, ?_, ?_⟩
  · intro s
    exact ⟨pyReplace_skip_clean s, newline_not_mem_clean (some s)⟩
  · intro v
    exact newline_not_mem_pyReplace v
  · exact docxRenderTable_no_newline
  · exact odtRenderTable_no_newline
  · exact pdfRenderTable_no_newline
  · exact excelRowLine_no_newline

/-- Claim C1, witness: the data row of a concrete Word table is a member of
the rendered output and contains no newline. -/
theorem claim_c1_witness :
    (str "|a b|" ∈ docxRenderTable [[str "h"], [str "a\nb"]]) ∧ '\n' ∉ str "|a b|" :=
  ⟨by decide, claim_c1_amended.2.2.1 [[str "h"], [str "a\nb"]] (str "|a b|") (by decide)⟩

/-- Claim C2: with mode `both` the extracted text of the page produces the
lines `\n## ページ1\n`, `hello\n`, yet the output buffer contains neither:
line 115 appends the text only when the mode is exactly `text`, while the
rule and the table-data heading are still inserted.  The code thereby
contradicts its own docstring for mode `both` and the claim. -/
theorem claim_c2_code_bug :
    pdfBuildContent (str "f.pdf")
        [⟨some (str "hello"), [[[some (str "a")], [some (str "b")]]]⟩] PdfMode.both =
      [str "# f.pdf\n", str "\n---\n\n# テーブルデータ\n", str "\n### ページ1 - テーブル\n",
        str "|a|", str "|---|", str "|b|", []] ∧
    extract_text_from_pdf [⟨some (str "hello"), [[[some (str "a")], [some (str "b")]]]⟩] =
      [str "\n## ページ1\n", str "hello\n"] ∧
    str "hello\n" ∉ pdfBuildContent (str "f.pdf")
        [⟨some (str "hello"), [[[some (str "a")], [some (str "b")]]]⟩] PdfMode.both := by
  decide

/-- Claim C3, counterexample: the OpenDocument style `heading0` contains
`heading` and its first decimal number is `0`; since the code caps the
level only from above, the emitted line carries zero `#` characters, not a
level in `[1,6]`. -/
theorem claim_c3_counterexample :
    odtRenderPara (str "heading0") (OdtNode.textLeaf (str "x")) = [str " x\n"] ∧
    '#' ∉ str " x\n" := by decide

/-- Claim C3 (amended): for an OpenDocument paragraph whose style name
contains `Heading` or `heading` and whose cleaned text is non-empty, the
emitted line is `#` repeated `odtHeadingLevel sty` times, a space, the
text and a newline, where the level is the first decimal number of the
style name capped at 6 (default 1 when there is none).  The level is
always at most 6 and is at least 1 whenever the first number is at least 1,
but a first number of 0 yields level 0: no lower cap exists. -/
theorem claim_c3_amended :
    ∀ (sty : Str) (body : OdtNode),
      (containsSub (str "Heading") sty || containsSub (str "heading") sty) = true →
      clean_text (some (extract_text_from_odt_element body)) ≠ [] →
      odtRenderPara sty body =
        [List.replicate (odtHeadingLevel sty) '#' ++ str " " ++
          clean_text (some (extract_text_from_odt_element body)) ++ str "\n"] ∧
      (firstNumber sty = none → odtHeadingLevel sty = 1) ∧
      (∀ n, firstNumber sty = some n → odtHeadingLevel sty = min n 6) ∧
      odtHeadingLevel sty ≤ 6 ∧
      (∀ n, firstNumber sty = some n → 1 ≤ n → 1 ≤ odtHeadingLevel sty) := by
  intro sty body hsty hne
  refine ⟨?_, ?_, ?_, ?_, ?_⟩
  · rw [odtRenderPara]
    simp only [List.isEmpty_iff, hne, if_neg, hsty, if_pos]
    simp [List.append_assoc]
  · intro h; simp [odtHeadingLevel, h]
  · intro n h; simp [odtHeadingLevel, h]
  · cases hf : firstNumber sty with
    | none => simp [odtHeadingLevel, hf]
    | some n =>
      simp only [odtHeadingLevel, hf]
      omega
  · intro n h hn
    simp only [odtHeadingLevel, h]
    omega

/-- Claim C3, witness: style `Heading9` with text `x` renders as
`###### x\n` — the level is capped at 6. -/
theorem claim_c3_witness :
    (containsSub (str "Heading") (str "Heading9") ||
      containsSub (str "heading") (str "Heading9")) = true ∧
    clean_text (some (extract_text_from_odt_element (OdtNode.textLeaf (str "x")))) ≠ [] ∧
    odtRenderPara (str "Heading9") (OdtNode.textLeaf (str "x")) = [str "###### x\n"] :=
  ⟨by decide, by decide, by
    have h := claim_c3_amended (str "Heading9") (OdtNode.textLeaf (str "x"))
      (by decide) (by decide)
    rw [h.1]
    decide⟩

/-- Claim C4, counterexample: a page with two detected tables, the first of
which cleans to nothing.  The first table's indexed subheading is emitted
although the table was supposed to be skipped entirely, and the lone
surviving table carries the indexed subheading `テーブル2` although the
claim demands the un-indexed form for a lone surviving table. -/
theorem claim_c4_counterexample :
    pdfRenderPageTables 1 [[[none]], [[some (str "a")], [some (str "b")]]] =
      [str "\n### ページ1 - テーブル1\n", str "\n### ページ1 - テーブル2\n",
        str "|a|", str "|---|", str "|b|", []] ∧
    str "\n### ページ1 - テーブル1\n" ∈
      pdfRenderPageTables 1 [[[none]], [[some (str "a")], [some (str "b")]]] := by
  decide

/-- Claim C4 (amended): every cell of a detected table is cleaned (absent
cells become the empty string), rows that are entirely empty after cleaning
are dropped, and a row survives exactly when some cleaned cell is
non-empty.  A non-empty raw table whose rows are all dropped still emits
its subheading (and nothing else), because the subheading is appended
before the cleaning; when rows survive, the subheading, header, separator,
body rows and trailing blank are emitted.  The subheading is indexed
exactly when the page's detected-table count exceeds one, regardless of how
many tables survive cleaning. -/
theorem claim_c4_amended :
    (pdfCleanCell none = [] ∧ ∀ v, pdfCleanCell (some v) = clean_text (some v)) ∧
    (∀ (tbl : List (List (Option Str))) (row : List (Option Str)), row ∈ tbl →
      row.map pdfCleanCell ∈ pdfCleanTable tbl ∨ ∀ c ∈ row.map pdfCleanCell, c = []) ∧
    (∀ (tbl : List (List (Option Str))) (r : List Str), r ∈ pdfCleanTable tbl →
      ∃ c ∈ r, c ≠ []) ∧
    (∀ (pn nt tn : Nat) (tbl : List (List (Option Str))), tbl ≠ [] →
      pdfCleanTable tbl = [] →
      pdfRenderTable pn nt tn tbl = [pdfSubheading pn nt tn]) ∧
    (∀ (pn nt tn : Nat) (tbl : List (List (Option Str)))
        (r0 : List Str) (rest : List (List Str)),
      pdfCleanTable tbl = r0 :: rest →
      pdfRenderTable pn nt tn tbl =
        [pdfSubheading pn nt tn, pipeLine r0, pipeLine (r0.map (fun _ => str "---"))] ++
          rest.map (fun row =>
            pipeLine (row.map (fun c => pyReplace (str "\n") (str "<br>") c))) ++ [[]]) ∧
    (∀ pn nt tn, 1 < nt → pdfSubheading pn nt tn =
      str "\n### ページ" ++ natToStr pn ++ str " - テーブル" ++ natToStr tn ++ str "\n") ∧
    (∀ pn nt tn, nt ≤ 1 → pdfSubheading pn nt tn =
      str "\n### ページ" ++ natToStr pn ++ str " - テーブル\n") ∧
    (∀ (pn : Nat) (tables : List (List (List (Option Str)))),
      pdfRenderPageTables pn tables =
        concatMap (fun it => pdfRenderTable pn tables.length it.1 it.2) (enumFrom 1 tables)) := by
  refine ⟨⟨rfl, fun v => rfl⟩, ?_, ?_, ?_, ?_, ?_, ?_, fun pn tables => rfl⟩
  · intro tbl row hrow
    by_cases hany : (row.map pdfCleanCell).any (fun c => !c.isEmpty)
    · left
      exact List.mem_filter.mpr ⟨List.mem_map.mpr ⟨row, hrow, rfl⟩, hany⟩
    · right
      intro c hc
      by_contra hcne
      exact hany (List.any_eq_true.mpr ⟨c, hc, by simpa [List.isEmpty_iff] using hcne⟩)
  · intro tbl r hr
    have := (List.mem_filter.mp hr).2
    rcases List.any_eq_true.mp this with ⟨c, hc, hcb⟩
    exact ⟨c, hc, by simpa [List.isEmpty_iff] using hcb⟩
  · intro pn nt tn tbl htbl hclean
    rw [pdfRenderTable, if_neg (by simpa [List.isEmpty_iff] using htbl), hclean]
  · intro pn nt tn tbl r0 rest hclean
    have htbl : tbl ≠ [] := by
      intro h
      rw [h] at hclean
      simp [pdfCleanTable] at hclean
    rw [pdfRenderTable, if_neg (by simpa [List.isEmpty_iff] using htbl), hclean]
  · intro pn nt tn h
    rw [pdfSubheading, if_pos h]
  · intro pn nt tn h
    rw [pdfSubheading, if_neg (by omega)]

/-- Claim C4, witness: the all-empty table `[[None]]` on a two-table page
renders as its bare subheading; the indexed versus plain subheading forms
at concrete counts. -/
theorem claim_c4_witness :
    pdfRenderTable 1 2 1 [[none]] = [pdfSubheading 1 2 1] ∧
    pdfSubheading 1 2 2 = str "\n### ページ1 - テーブル2\n" ∧
    pdfSubheading 1 1 1 = str "\n### ページ1 - テーブル\n" :=
  ⟨claim_c4_amended.2.2.2.1 1 2 1 [[none]] (by decide) (by decide),
   by
    rw [claim_c4_amended.2.2.2.2.2.1 1 2 2 (by omega)]
    decide,
   by
    rw [claim_c4_amended.2.2.2.2.2.2.1 1 1 1 (by omega)]
    decide⟩

/-- Claim C5, counterexample: with `pdfplumber` absent, invoking the PDF
converter from a fresh process faults at the module-level import before the
entry point can run: the result is an uncaught error, not a `false`
indicator with a printed installation hint. -/
theorem claim_c5_counterexample :
    callPdfConverter false true ⟨true, str "x.pdf", str "x.md", Except.ok []⟩ PdfMode.both =
      Except.error (str "ModuleNotFoundError: No module named pdfplumber") ∧
    ∀ (prints : List Str) (out : Option Str),
      callPdfConverter false true ⟨true, str "x.pdf", str "x.md", Except.ok []⟩ PdfMode.both ≠
        Except.ok (false, prints, out) := by
  constructor
  · rfl
  · intro prints out h
    simp [callPdfConverter, importPdfModule] at h

/-- Claim C5 (amended): every entry point is a total function into a
boolean result with printed diagnostics and an optional output file.
`doc_to_markdown` guards its optional libraries: a missing python-docx or
odfpy for a requested `.docx`/`.odt`/`.ods` input yields `false`, a printed
message naming the library, and no output file, and any parse failure is
likewise caught.  In `pdf_to_markdown` and `excel_to_markdown`, failures
raised inside the call are caught and produce `false` with a diagnostic
(for PDF, one naming pdfplumber) and no output file — but a missing
pdfplumber or pandas faults at module import, before the entry point, so
no installation hint is printed by the converters themselves. -/
theorem claim_c5_amended :
    (∀ inp : DocInput, inp.fileExists = true → inp.ext = str ".docx" →
      inp.docxAvailable = false →
      doc_to_markdown inp =
        (false, [str "Word文書(.docx)を処理中...", str "ライブラリエラー: " ++ docxImportErrMsg],
          none)) ∧
    (∀ inp : DocInput, inp.fileExists = true →
      (inp.ext = str ".odt" ∨ inp.ext = str ".ods") → inp.odtAvailable = false →
      doc_to_markdown inp =
        (false, [str "OpenDocument形式を処理中...", str "ライブラリエラー: " ++ odtImportErrMsg],
          none)) ∧
    (∀ (inp : DocInput) (e : Str), inp.fileExists = true → inp.ext = str ".docx" →
      inp.docxAvailable = true → inp.docxDoc = Except.error e →
      doc_to_markdown inp =
        (false,
          [str "Word文書(.docx)を処理中...", str "エラーが発生しました: " ++ e] ++ docGenericHints,
          none)) ∧
    (∀ (inp : PdfInput) (mode : PdfMode) (e : Str), inp.fileExists = true →
      inp.pages = Except.error e →
      pdf_to_markdown inp mode =
        (false,
          [str "エラーが発生しました: " ++ e,
           str "pdfplumberがインストールされていない場合は、以下のコマンドでインストールしてください:",
           str "pip install pdfplumber"],
          none)) ∧
    (∀ (inp : ExcelInput) (e : Str), inp.fileExists = true → inp.sheets = Except.error e →
      excel_to_markdown inp = (false, [str "エラーが発生しました: " ++ e], none)) ∧
    (∀ (inp : PdfInput) (mode : PdfMode) (pandasInstalled : Bool),
      callPdfConverter false pandasInstalled inp mode =
        Except.error (str "ModuleNotFoundError: No module named pdfplumber")) ∧
    (∀ inp : ExcelInput,
      callExcelConverter false inp =
        Except.error (str "ModuleNotFoundError: No module named pandas")) ∧
    (∀ (d o : Bool) (inp : DocInput),
      callDocConverter d o inp = Except.ok (doc_to_markdown inp)) := by
  refine ⟨?_, ?_, ?_, ?_, ?_, ?_, ?_, ?_⟩
  · intro inp hex hext havail
    rw [doc_to_markdown, if_neg (by simp [hex])]
    rw [if_pos hext, if_pos (by simp [havail])]
  · intro inp hex hext havail
    have hnotdocx : ¬ inp.ext = str ".docx" := by
      rcases hext with h | h <;> rw [h] <;> decide
    rw [doc_to_markdown, if_neg (by simp [hex]), if_neg hnotdocx,
      if_pos hext, if_pos (by simp [havail])]
  · intro inp e hex hext havail hdoc
    rw [doc_to_markdown, if_neg (by simp [hex]), if_pos hext,
      if_neg (by simp [havail]), hdoc]
  · intro inp mode e hex hpages
    rw [pdf_to_markdown, if_neg (by simp [hex]), hpages]
  · intro inp e hex hsheets
    rw [excel_to_markdown, if_neg (by simp [hex]), hsheets]
  · intro inp mode pandasInstalled
    rfl
  · intro inp
    rfl
  · intro d o inp
    rfl

/-- Claim C5, witness: concrete invocations of the library-missing branch
for `.docx`, of the caught PDF parse failure, and of the uncaught PDF
module-import failure. -/
theorem claim_c5_witness :
    doc_to_markdown
        ⟨true, str "a.docx", str "a.md", str ".docx", false, false, Except.ok [], Except.ok []⟩ =
      (false, [str "Word文書(.docx)を処理中...", str "ライブラリエラー: " ++ docxImportErrMsg],
        none) ∧
    pdf_to_markdown ⟨true, str "b.pdf", str "b.md", Except.error (str "boom")⟩ PdfMode.both =
      (false,
        [str "エラーが発生しました: " ++ str "boom",
         str "pdfplumberがインストールされていない場合は、以下のコマンドでインストールしてください:",
         str "pip install pdfplumber"],
        none) ∧
    callPdfConverter false true ⟨true, str "b.pdf", str "b.md", Except.ok []⟩ PdfMode.text =
      Except.error (str "ModuleNotFoundError: No module named pdfplumber") :=
  ⟨claim_c5_amended.1 ⟨true, str "a.docx", str "a.md", str ".docx", false, false,
      Except.ok [], Except.ok []⟩ rfl rfl rfl,
   claim_c5_amended.2.2.2.1 ⟨true, str "b.pdf", str "b.md", Except.error (str "boom")⟩
      PdfMode.both (str "boom") rfl rfl,
   claim_c5_amended.2.2.2.2.2.1 ⟨true, str "b.pdf", str "b.md", Except.ok []⟩ PdfMode.text true⟩

theorem map_const_replicate {α : Type} (l : List α) (b : Str) :
    l.map (fun _ => b) = List.replicate l.length b := by
  induction l with
  | nil => rfl
  | cons x xs ih => simp [ih, List.replicate_succ]

/-- Claim C6: in every converter the separator row consists of exactly one
`---` cell per header-row cell: it is the pipe-joined list
`replicate H.length "---"` where `H` is the header cell list.  For the PDF
renderer this is stated for any table with surviving rows, for the
spreadsheet renderer for any sheet that emits a table at all. -/
theorem claim_c6 :
    (∀ (r0 : List Str) (rest : List (List Str)),
      docxRenderTable (r0 :: rest) =
        [[], pipeLine (r0.map (fun c => clean_text (some c))),
          pipeLine (List.replicate (r0.map (fun c => clean_text (some c))).length (str "---"))] ++
          rest.map (fun row =>
            pipeLine (row.map (fun c => pyReplace (str "\n") (str "<br>") (clean_text (some c))))) ++
          [[]]) ∧
    (∀ (r0 : List OdtNode) (rest : List (List OdtNode)),
      odtRenderTable (r0 :: rest) =
        [[], pipeLine (r0.map (fun cell => clean_text (some (extract_text_from_odt_element cell)))),
          pipeLine (List.replicate
            (r0.map (fun cell => clean_text (some (extract_text_from_odt_element cell)))).length
            (str "---"))] ++
          (rest.map (fun row => row.map (fun cell =>
            clean_text (some (extract_text_from_odt_element cell))))).map (fun row =>
              pipeLine (row.map (fun c => pyReplace (str "\n") (str "<br>") c))) ++
          [[]]) ∧
    (∀ (pn nt tn : Nat) (tbl : List (List (Option Str)))
        (r0 : List Str) (rest : List (List Str)),
      pdfCleanTable tbl = r0 :: rest →
      pdfRenderTable pn nt tn tbl =
        [pdfSubheading pn nt tn, pipeLine r0,
          pipeLine (List.replicate r0.length (str "---"))] ++
          rest.map (fun row =>
            pipeLine (row.map (fun c => pyReplace (str "\n") (str "<br>") c))) ++ [[]]) ∧
    (∀ s : Sheet, s.rows ≠ [] → s.cols ≠ [] →
      excelRenderSheet s =
        [str "\n## " ++ s.name ++ str "\n", pipeLine s.cols,
          pipeLine (List.replicate s.cols.length (str "---"))] ++
          s.rows.map excelRowLine ++ [[]]) := by
  refine ⟨?_, ?_, ?_, ?_⟩
  · intro r0 rest
    rw [docxRenderTable]
    rw [map_const_replicate (r0.map (fun c => clean_text (some c))) (str "---")]
  · intro r0 rest
    rw [odtRenderTable]
    simp only [List.map_cons]
    rw [map_const_replicate (r0.map (fun cell => clean_text (some (extract_text_from_odt_element cell)))) (str "---")]
  · intro pn nt tn tbl r0 rest hclean
    have htbl : tbl ≠ [] := by
      intro h
      rw [h] at hclean
      simp [pdfCleanTable] at hclean
    rw [pdfRenderTable, if_neg (by simpa [List.isEmpty_iff] using htbl), hclean]
    simp [map_const_replicate]
  · intro s hrows hcols
    rw [excelRenderSheet,
      if_neg (by simp [List.isEmpty_iff, hrows, hcols]),
      map_const_replicate s.cols (str "---")]

/-- Claim C6, witness: concrete tables for the two hypothesis-bearing
conjuncts: a PDF table with one surviving data row and a one-column
two-row sheet both get a separator with exactly as many `---` cells as the
header has cells. -/
theorem claim_c6_witness :
    pdfRenderTable 1 1 1 [[some (str "h"), some (str "x")], [some (str "b"), none]] =
      [pdfSubheading 1 1 1, pipeLine [str "h", str "x"],
        pipeLine (List.replicate 2 (str "---"))] ++
        [pipeLine [str "b", []]] ++ [[]] ∧
    excelRenderSheet ⟨str "S", [str "c1"], [[some (str "v")]]⟩ =
      [str "\n## " ++ str "S" ++ str "\n", pipeLine [str "c1"],
        pipeLine (List.replicate 1 (str "---"))] ++
        [excelRowLine [some (str "v")]] ++ [[]] := by
  constructor
  · have h := claim_c6.2.2.1 1 1 1 [[some (str "h"), some (str "x")], [some (str "b"), none]]
      [str "h", str "x"] [[str "b", []]] (by decide)
    rw [h]
    decide
  · have h := claim_c6.2.2.2 ⟨str "S", [str "c1"], [[some (str "v")]]⟩
      (by decide) (by decide)
    rw [h]
    decide

/-- Claim C7: the OpenDocument converter's buffer is exactly the renderings
of all paragraph elements in document order followed by the renderings of
all table elements in document order — paragraph-derived lines all precede
table-derived lines, with no interleaving. -/
theorem claim_c7 :
    ∀ doc : List OdtElem,
      odt_to_markdown doc =
        concatMap (fun pb => odtRenderPara pb.1 pb.2) (odtParas doc) ++
          concatMap odtRenderTable (odtTables doc) := by
  intro doc
  rw [odt_to_markdown]
  rw [foldl_append_eq_concatMap (fun pb => odtRenderPara pb.1 pb.2) (odtParas doc) []]
  rw [foldl_append_eq_concatMap odtRenderTable (odtTables doc)]
  simp

/-- Claim C9: sheets are processed in the file's internal order, each
sheet's section starts with the level-2 heading holding its name, and a
sheet with zero data rows emits exactly the heading followed by the
no-data placeholder — no line of such a section starts with a pipe, so no
table syntax appears. -/
theorem claim_c9 :
    (∀ (fn : Str) (s : Sheet) (sheets : List Sheet),
      excelBuildContent fn (s :: sheets) =
        (str "# " ++ fn ++ str "\n") ::
          (excelRenderSheet s ++ concatMap excelRenderSheet sheets)) ∧
    (∀ s : Sheet, (excelRenderSheet s).head? = some (str "\n## " ++ s.name ++ str "\n")) ∧
    (∀ s : Sheet, s.rows = [] →
      excelRenderSheet s = [str "\n## " ++ s.name ++ str "\n", str "*（データなし）*\n"]) ∧
    (∀ s : Sheet, s.rows = [] →
      ∀ line ∈ excelRenderSheet s, line.head? ≠ some '|') := by
  have hempty : ∀ s : Sheet, s.rows = [] →
      excelRenderSheet s = [str "\n## " ++ s.name ++ str "\n", str "*（データなし）*\n"] := by
    intro s h
    rw [excelRenderSheet, if_pos (by simp [h])]
  refine ⟨fun fn s sheets => rfl, ?_, hempty, ?_⟩
  · intro s
    rw [excelRenderSheet]
    by_cases h : (s.rows.isEmpty || s.cols.isEmpty) = true
    · rw [if_pos h]; rfl
    · rw [if_neg h]; rfl
  · intro s h line hline
    rw [hempty s h] at hline
    rcases List.mem_cons.mp hline with rfl | hline
    · intro hcontra
      have hh : (str "\n## " ++ s.name ++ str "\n").head? = some '\n' := rfl
      rw [hh] at hcontra
      simp at hcontra
    · have hl : line = str "*（データなし）*\n" := by simpa using hline
      rw [hl]
      decide

/-- Claim C9, witness: a sheet named `S` with one column and no data rows
renders as the heading followed by the placeholder, and neither line
starts with a pipe. -/
theorem claim_c9_witness :
    excelRenderSheet ⟨str "S", [str "c"], []⟩ =
      [str "\n## " ++ str "S" ++ str "\n", str "*（データなし）*\n"] ∧
    (str "\n## " ++ str "S" ++ str "\n").head? ≠ some '|' :=
  ⟨claim_c9.2.2.1 ⟨str "S", [str "c"], []⟩ rfl,
   claim_c9.2.2.2 ⟨str "S", [str "c"], []⟩ rfl (str "\n## " ++ str "S" ++ str "\n")
     (by rw [claim_c9.2.2.1 ⟨str "S", [str "c"], []⟩ rfl]; decide)⟩

/-- Claim C10: `clean_text` of an absent input is the empty string; on any
input the result has no leading whitespace, no trailing whitespace and no
two consecutive whitespace characters, and `clean_text` is idempotent. -/
theorem claim_c10 :
    clean_text none = [] ∧
    (∀ s : Str, clean_text (some (clean_text (some s))) = clean_text (some s)) ∧
    (∀ (s : Str) (c : Char), (clean_text (some s)).head? = some c → isPySpace c = false) ∧
    (∀ (s : Str) (c : Char), (clean_text (some s)).getLast? = some c → isPySpace c = false) ∧
    (∀ s : Str, noConsecWsB (clean_text (some s)) = true) :=
  ⟨rfl, clean_idem, fun _ _ h => clean_head h, fun _ _ h => clean_getLast h,
   fun s => (noConsecWsB_iff_chain _).mpr clean_chain⟩

/-- Claim C10, witness: cleaning `" a  b "` yields `"a b"`; the theorem
applied at this input confirms idempotence and the non-space head. -/
theorem claim_c10_witness :
    clean_text (some (str " a  b ")) = str "a b" ∧
    clean_text (some (clean_text (some (str " a  b ")))) = clean_text (some (str " a  b ")) ∧
    (clean_text (some (str " a  b "))).head? = some 'a' ∧
    isPySpace 'a' = false :=
  ⟨by decide, claim_c10.2.1 (str " a  b "),
   by decide, claim_c10.2.2.1 (str " a  b ") 'a' (by decide)⟩

/-- Claim C8, counterexample: the two italic runs `a` and `*` satisfy the
claim's precondition — neither run's text occurs as a substring anywhere
but at its own position in the paragraph text `a*` — yet the substitution
loop produces `***a******` instead of the expected `*a****`: the asterisks
inserted while wrapping the first run are rewritten when the second run is
processed. -/
theorem claim_c8_counterexample :
    (∀ (d₁ : List Run) (r : Run) (d₂ : List Run),
      ([⟨str "a", false, true⟩, ⟨str "*", false, true⟩] : List Run) = d₁ ++ r :: d₂ →
      ∀ a b, concatTexts [⟨str "a", false, true⟩, ⟨str "*", false, true⟩] =
          a ++ r.text ++ b → a = concatTexts d₁) ∧
    docxFormatRuns (concatTexts [⟨str "a", false, true⟩, ⟨str "*", false, true⟩])
        [⟨str "a", false, true⟩, ⟨str "*", false, true⟩] =
      str "***a******" ∧
    renderRuns [⟨str "a", false, true⟩, ⟨str "*", false, true⟩] = str "*a****" ∧
    docxFormatRuns (concatTexts [⟨str "a", false, true⟩, ⟨str "*", false, true⟩])
        [⟨str "a", false, true⟩, ⟨str "*", false, true⟩] ≠
      renderRuns [⟨str "a", false, true⟩, ⟨str "*", false, true⟩] := by
  refine ⟨?_, by decide, by decide, by decide⟩
  intro d₁ r d₂ heq a b hab
  rcases d₁ with _ | ⟨r₁, d₁⟩
  · injection heq with h1 h2
    subst h1
    have hab2 : (['a', '*'] : Str) = a ++ ['a'] ++ b := hab
    show a = ([] : Str)
    rcases a with _ | ⟨x, _ | ⟨y, a⟩⟩
    · rfl
    · exfalso; simp at hab2
    · exfalso; simp at hab2
  · injection heq with h1 h2
    subst h1
    rcases d₁ with _ | ⟨r₂, d₁⟩
    · injection h2 with h3 h4
      subst h3
      have hab2 : (['a', '*'] : Str) = a ++ ['*'] ++ b := hab
      show a = (['a'] : Str)
      rcases a with _ | ⟨x, _ | ⟨y, a⟩⟩
      · exfalso; simp at hab2
      · simp at hab2
        simp [hab2.1.symm]
      · exfalso; simp at hab2
    · exfalso
      injection h2 with h3 h4
      simp at h4

/-- Claim C8 (amended): for a Word paragraph that is neither a heading nor
a list item, whose stripped text is exactly the concatenation of its run
texts, the emphasis loop produces the concatenation of the per-run
wrappings — `***…***` for bold italic, `**…**` for bold, `*…*` for italic,
the text itself for plain runs — provided that every run's text is free of
asterisks, every formatted run's text is non-empty, and no run's text
occurs as a substring of the paragraph text anywhere but at its own
position.  (The claim's own precondition, without the asterisk-freedom, is
not sufficient: see the counterexample.) -/
theorem claim_c8_amended :
    ∀ p : DocxParagraph,
      (containsSub (str "Heading 1") p.styleName ||
        containsSub (str "見出し 1") p.styleName) = false →
      (containsSub (str "Heading 2") p.styleName ||
        containsSub (str "見出し 2") p.styleName) = false →
      (containsSub (str "Heading 3") p.styleName ||
        containsSub (str "見出し 3") p.styleName) = false →
      (containsSub (str "List") p.styleName ||
        containsSub (str "箇条書き") p.styleName) = false →
      stripWs (concatTexts p.runs) = concatTexts p.runs →
      concatTexts p.runs ≠ [] →
      (∀ r ∈ p.runs, '*' ∉ r.text) →
      (∀ r ∈ p.runs, runFormatted r = true → r.text ≠ []) →
      (∀ d₁ r d₂, p.runs = d₁ ++ r :: d₂ → runFormatted r = true →
        ∀ a b, concatTexts p.runs = a ++ r.text ++ b → a = concatTexts d₁) →
      docxRenderPara p = [renderRuns p.runs, []] := by
  intro p h1 h2 h3 h4 hstrip hne hstar hfne huniq
  have hfmt : docxFormatRuns (concatTexts p.runs) p.runs = renderRuns p.runs := by
    have := docxFormatRuns_loop p.runs hstar hfne huniq p.runs [] rfl
    simpa [docxFormatRuns, renderRuns] using this
  rw [docxRenderPara]
  simp only [hstrip, List.isEmpty_iff, hne, if_neg, h1, h2, h3, h4, Bool.false_eq_true,
    if_false, hfmt]
  rfl

/-- Claim C8, witness: a paragraph holding the single bold run `a` renders
as `**a**` followed by the separating blank line. -/
theorem claim_c8_witness :
    docxRenderPara ⟨[], [⟨str "a", true, false⟩]⟩ = [str "**a**", []] := by
  have h := claim_c8_amended ⟨[], [⟨str "a", true, false⟩]⟩
    (by decide) (by decide) (by decide) (by decide) (by decide) (by decide)
    (by decide) (by decide)
    (by
      intro d₁ r d₂ heq hf a b hab
      rcases d₁ with _ | ⟨r₁, d₁⟩
      · injection heq with hh1 hh2
        subst hh1
        have hab2 : (['a'] : Str) = a ++ ['a'] ++ b := hab
        show a = ([] : Str)
        rcases a with _ | ⟨x, a⟩
        · rfl
        · exfalso; simp at hab2
      · exfalso
        injection heq with hh1 hh2
        simp at hh2)
  rw [h]
  decide


end Tomd
